import Mathlib

/-!
Shallow embedding of the blog-post CRUD backend
(`src/backend/src/{handlers.rs, models.rs, errors.rs}`) and proofs about it.

Modelling conventions:
* Rust `String` is Lean `String`; Rust `String::len()` (UTF-8 byte count) is
  `byteLen`; Rust `String::is_empty()` is equality with `""`.
* `i64` ids and pagination integers are Lean `Int`.
* Timestamps (`chrono::DateTime<Utc>`, SQLite `CURRENT_TIMESTAMP`) are `Nat`
  clock values threaded explicitly: each state-changing handler takes the
  current time `now` as a parameter.
* The SQLite store is a `Store`: the list of rows of the `posts` table in
  rowid (insertion) order.  `id` is the INTEGER PRIMARY KEY, so all rows have
  distinct ids in any state the handlers build.
* Handlers return `Except AppError α` for `Result<α, AppError>`, paired with
  the store state after the call for the state-changing ones.
* Storage faults (`sqlx` connectivity errors etc.) are outside the store
  model; their response mapping is settled on `AppError.intoResponse` alone.
-/

deriving instance DecidableEq for Except

/-- `models.rs` `Post`: the row type of the `posts` table. -/
structure Post where
  id : Int
  title : String
  content : String
  author : String
  status : String
  created_at : Nat
  updated_at : Nat
deriving Repr, DecidableEq

/-- `models.rs` `CreatePost` after deserialization (the `status` serde
default has already been applied). -/
structure CreatePost where
  title : String
  content : String
  author : String
  status : String
deriving Repr, DecidableEq

/-- The wire form of a create payload, before serde runs: `status` may be
absent (`#[serde(default = "default_status")]` in `models.rs`). -/
structure CreatePostInput where
  title : String
  content : String
  author : String
  statusOpt : Option String
deriving Repr, DecidableEq

/-- `models.rs` `default_status`. -/
def default_status : String := "draft"

/-- serde deserialization of `CreatePost`: an absent `status` is filled with
`default_status` (`models.rs` lines 20-26). -/
def deserializeCreatePost (i : CreatePostInput) : CreatePost :=
  { title := i.title, content := i.content, author := i.author,
    status := i.statusOpt.getD default_status }

/-- `models.rs` `UpdatePost`: every field optional. -/
structure UpdatePost where
  title : Option String
  content : Option String
  author : Option String
  status : Option String
deriving Repr, DecidableEq

/-- `errors.rs` `AppError`.  `DatabaseError` carries the display string of
the underlying `sqlx::Error`. -/
inductive AppError where
  | NotFound
  | DatabaseError (msg : String)
  | ValidationError (msg : String)
  | InternalError
deriving Repr, DecidableEq

/-- `errors.rs` `impl IntoResponse for AppError`: the `(status, error_message)`
pair put into the JSON body `{"error": message, "status": status}`. -/
def AppError.intoResponse : AppError → Nat × String
  | .NotFound => (404, "Resource not found")
  | .DatabaseError e => (500, "Database error: " ++ e)
  | .ValidationError msg => (400, msg)
  | .InternalError => (500, "Internal server error")

/-- Rust `String::len()`: the UTF-8 byte length of the string (NOT the number
of characters). -/
def byteLen (s : String) : Nat :=
  s.toList.foldl (fun n c => n + c.utf8Size) 0

/-- The `posts` table: rows in rowid (insertion) order. -/
structure Store where
  posts : List Post
deriving Repr, DecidableEq

/-- Modelled from the spec: the store-assigned primary key for a fresh row
(`id` is "assigned by the store on creation", unique; SQLite rowid
allocation picks a value larger than every existing rowid).  The table
schema itself (migrations) is not under `src/`. -/
def freshId (posts : List Post) : Int :=
  (posts.foldl (fun m p => max m p.id) 0) + 1

/-- `handlers.rs` `PaginationParams` (declared in `schema.rs`, which is not
under `src/`; modelled from the spec: integer `page` and `per_page`, and the
handler applies `max`/`clamp` to them, so values ≤ 0 are representable). -/
structure PaginationParams where
  page : Int
  per_page : Int
deriving Repr, DecidableEq

/-- `schema.rs` `PaginatedResponse` as used by `list_posts`. -/
structure PaginatedResponse where
  data : List Post
  page : Int
  per_page : Int
  total : Int
deriving Repr, DecidableEq

/-- Rust `i64::clamp(lo, hi)` (with `lo ≤ hi`). -/
def clampI (x lo hi : Int) : Int :=
  if x < lo then lo else if x > hi then hi else x

/-- Stable insertion (descending by `created_at`) used to model the SQL
`ORDER BY created_at DESC`: the new element goes in front of the first row
whose key is ≤ its own, so among equal keys earlier rows stay first. -/
def insertByCreatedAtDesc (p : Post) : List Post → List Post
  | [] => [p]
  | q :: qs =>
    if q.created_at ≤ p.created_at then p :: q :: qs
    else q :: insertByCreatedAtDesc p qs

/-- Model of `ORDER BY created_at DESC` in `list_posts`: a stable sort of the
table-scan (rowid) order by `created_at` descending.  The SQL names no
secondary sort key, so the relative order of rows with equal `created_at` is
whatever the scan produced; the stable sort makes that explicit. -/
def orderByCreatedAtDesc : List Post → List Post
  | [] => []
  | p :: ps => insertByCreatedAtDesc p (orderByCreatedAtDesc ps)

/-- `handlers.rs` `list_posts`: normalizes `page`/`per_page`, selects with
`ORDER BY created_at DESC LIMIT per_page OFFSET (page-1)*per_page`
(`OFFSET` = drop, `LIMIT` = take), and counts the whole table. -/
def list_posts (st : Store) (params : PaginationParams) : PaginatedResponse :=
  let page := max params.page 1
  let per_page := clampI params.per_page 1 100
  let offset := (page - 1) * per_page
  let sorted := orderByCreatedAtDesc st.posts
  { data := (sorted.drop offset.toNat).take per_page.toNat
    page := page
    per_page := per_page
    total := Int.ofNat st.posts.length }

/-- `handlers.rs` `get_post`: `SELECT ... WHERE id = ?` with `fetch_one`;
`RowNotFound` is mapped to `AppError.NotFound`. -/
def get_post (st : Store) (id : Int) : Except AppError Post :=
  match st.posts.find? (fun p => p.id == id) with
  | some p => .ok p
  | none => .error .NotFound

/-- `handlers.rs` `create_post`: three validation checks (byte lengths, as
Rust `len()`/`is_empty`), then the INSERT.  The store assigns the id and
sets both timestamps to the current time (timestamp defaults are in the
migrations, not under `src/`; modelled from the spec: "store assigns `id`,
`created_at`, `updated_at` to the current time").  Returns the resulting
store alongside the handler result; a validation failure happens before any
storage call, so the store is unchanged. -/
def create_post (st : Store) (now : Nat) (payload : CreatePost) :
    Except AppError Post × Store :=
  if byteLen payload.title < 3 then
    (.error (.ValidationError "Title must be at least 3 characters"), st)
  else if payload.content = "" then
    (.error (.ValidationError "Content cannot be empty"), st)
  else if payload.author = "" then
    (.error (.ValidationError "Author cannot be empty"), st)
  else
    let p : Post :=
      { id := freshId st.posts, title := payload.title,
        content := payload.content, author := payload.author,
        status := payload.status, created_at := now, updated_at := now }
    (.ok p, ⟨st.posts ++ [p]⟩)

/-- The UPDATE statement of `handlers.rs` `update_post`: per-field
`COALESCE(?, field)` (a NULL bind, i.e. `none`, keeps the old value),
`updated_at = CURRENT_TIMESTAMP`, `WHERE id = ?`, `RETURNING` the row;
`fetch_one`'s `RowNotFound` is mapped to `AppError.NotFound`. -/
def update_apply (st : Store) (now : Nat) (id : Int) (payload : UpdatePost) :
    Except AppError Post × Store :=
  match st.posts.find? (fun p => p.id == id) with
  | none => (.error .NotFound, st)
  | some old =>
    let p : Post :=
      { id := old.id
        title := payload.title.getD old.title
        content := payload.content.getD old.content
        author := payload.author.getD old.author
        status := payload.status.getD old.status
        created_at := old.created_at
        updated_at := now }
    (.ok p, ⟨st.posts.map (fun q => if q.id == id then p else q)⟩)

/-- The `if let Some(ref title) = payload.title { if title.len() < 3 }` guard
of `handlers.rs` `update_post`: true exactly when a title is supplied and its
byte length is below 3. -/
def titleTooShort : Option String → Bool
  | some t => byteLen t < 3
  | none => false

/-- `handlers.rs` `update_post`: when a `title` is supplied it must be at
least 3 bytes (Rust `len()`), checked before the storage call; then the
UPDATE runs. -/
def update_post (st : Store) (now : Nat) (id : Int) (payload : UpdatePost) :
    Except AppError Post × Store :=
  if titleTooShort payload.title then
    (.error (.ValidationError "Title must be at least 3 characters"), st)
  else update_apply st now id payload

/-- `handlers.rs` `delete_post`: `DELETE FROM posts WHERE id = ?`; a zero
`rows_affected` is mapped to `AppError.NotFound`, otherwise the handler
returns `StatusCode::NO_CONTENT` (204). -/
def delete_post (st : Store) (id : Int) : Except AppError Nat × Store :=
  if st.posts.length -
      (st.posts.filter (fun p => !(p.id == id))).length = 0 then
    (.error .NotFound, ⟨st.posts.filter (fun p => !(p.id == id))⟩)
  else
    (.ok 204, ⟨st.posts.filter (fun p => !(p.id == id))⟩)

/-- Reduction of `update_apply` when a row with the requested id exists. -/
theorem update_apply_ok (st : Store) (now : Nat) (id : Int)
    (payload : UpdatePost) (old : Post)
    (hold : st.posts.find? (fun p => p.id == id) = some old) :
    update_apply st now id payload =
      (.ok { id := old.id
             title := payload.title.getD old.title
             content := payload.content.getD old.content
             author := payload.author.getD old.author
             status := payload.status.getD old.status
             created_at := old.created_at
             updated_at := now },
       ⟨st.posts.map (fun q =>
          if q.id == id then
            { id := old.id
              title := payload.title.getD old.title
              content := payload.content.getD old.content
              author := payload.author.getD old.author
              status := payload.status.getD old.status
              created_at := old.created_at
              updated_at := now }
          else q)⟩) := by
  unfold update_apply
  rw [hold]

/-- C1: on a successful update of an existing post, exactly the supplied
fields take the supplied values, unsupplied fields keep their prior values,
`id` and `created_at` are unchanged, `updated_at` is refreshed to the current
time, and in the store only the row with that id is replaced. -/
theorem update_post_frame (st : Store) (now : Nat) (id : Int)
    (payload : UpdatePost) (old p : Post) (st' : Store)
    (hold : st.posts.find? (fun q => q.id == id) = some old)
    (hok : update_post st now id payload = (.ok p, st')) :
    (∀ v, payload.title = some v → p.title = v) ∧
    (payload.title = none → p.title = old.title) ∧
    (∀ v, payload.content = some v → p.content = v) ∧
    (payload.content = none → p.content = old.content) ∧
    (∀ v, payload.author = some v → p.author = v) ∧
    (payload.author = none → p.author = old.author) ∧
    (∀ v, payload.status = some v → p.status = v) ∧
    (payload.status = none → p.status = old.status) ∧
    p.id = old.id ∧ p.created_at = old.created_at ∧ p.updated_at = now ∧
    st'.posts = st.posts.map (fun q => if q.id == id then p else q) := by
  unfold update_post at hok
  by_cases hts : titleTooShort payload.title
  · rw [if_pos hts] at hok
    simp at hok
  · rw [if_neg hts] at hok
    rw [update_apply_ok st now id payload old hold] at hok
    simp only [Prod.mk.injEq, Except.ok.injEq] at hok
    obtain ⟨hp, hst⟩ := hok
    subst hp
    subst hst
    refine ⟨?_, ?_, ?_, ?_, ?_, ?_, ?_, ?_, rfl, rfl, rfl, rfl⟩
    all_goals first
      | (intro v hv; simp [hv])
      | (intro hv; simp [hv])

/-- Witness for C1 at a concrete store and payload: updating post 1's content
only leaves the title, sets the content, and refreshes `updated_at`. -/
theorem update_post_frame_witness :
    (⟨1, "abc", "x", "me", "draft", 2, 5⟩ : Post).content = "x" ∧
    (⟨1, "abc", "x", "me", "draft", 2, 5⟩ : Post).title = "abc" ∧
    (⟨1, "abc", "x", "me", "draft", 2, 5⟩ : Post).updated_at = 5 := by
  have h := update_post_frame ⟨[⟨1, "abc", "body", "me", "draft", 2, 2⟩]⟩ 5 1
    ⟨none, some "x", none, none⟩ ⟨1, "abc", "body", "me", "draft", 2, 2⟩
    ⟨1, "abc", "x", "me", "draft", 2, 5⟩ ⟨[⟨1, "abc", "x", "me", "draft", 2, 5⟩]⟩
    (by decide) (by decide)
  exact ⟨h.2.2.1 "x" rfl, h.2.1 rfl, h.2.2.2.2.2.2.2.2.2.2.1⟩

/-- C2 counterexample: the title `"éé"` has 2 characters (fewer than 3), yet
`create_post` accepts the payload and inserts a row, because the code checks
Rust `String::len()`, the UTF-8 byte length (here 4). -/
theorem create_validation_charlen_cex :
    ("éé".length < 3) ∧
    (create_post ⟨[]⟩ 0 ⟨"éé", "c", "a", "draft"⟩).1 =
      .ok ⟨1, "éé", "c", "a", "draft", 0, 0⟩ ∧
    (create_post ⟨[]⟩ 0 ⟨"éé", "c", "a", "draft"⟩).2 =
      ⟨[⟨1, "éé", "c", "a", "draft", 0, 0⟩]⟩ := by
  refine ⟨by decide, by decide, by decide⟩

/-- C2 amended: `create_post` signals `ValidationError` iff the title's UTF-8
byte length (Rust `len()`) is below 3, or the content is empty, or the author
is empty; and whenever that condition holds the store is unchanged (the checks
precede any storage call, so no row is inserted). -/
theorem create_validation_bytelen (st : Store) (now : Nat)
    (payload : CreatePost) :
    ((∃ m, (create_post st now payload).1 = .error (.ValidationError m)) ↔
      (byteLen payload.title < 3 ∨ payload.content = "" ∨
        payload.author = "")) ∧
    ((byteLen payload.title < 3 ∨ payload.content = "" ∨
        payload.author = "") →
      (create_post st now payload).2 = st) := by
  unfold create_post
  split_ifs with h1 h2 h3 <;> simp_all

/-- Witness for C2 at a concrete invalid payload (2-byte title "ab"):
validation fails and the store stays empty. -/
theorem create_validation_bytelen_witness :
    (create_post ⟨[]⟩ 0 ⟨"ab", "c", "a", "draft"⟩).2 = (⟨[]⟩ : Store) :=
  (create_validation_bytelen ⟨[]⟩ 0 ⟨"ab", "c", "a", "draft"⟩).2
    (Or.inl (by decide))

/-- C4: `list_posts` uses `max page 1` as the effective page and
`clamp(per_page, 1, 100)` as the effective page size, both normalized before
the offset is computed, so the window is never negative or wider than the
page size. -/
theorem pagination_normalization (st : Store) (params : PaginationParams) :
    (list_posts st params).page = max params.page 1 ∧
    (list_posts st params).per_page = clampI params.per_page 1 100 ∧
    1 ≤ (list_posts st params).page ∧
    1 ≤ (list_posts st params).per_page ∧
    (list_posts st params).per_page ≤ 100 ∧
    0 ≤ ((list_posts st params).page - 1) * (list_posts st params).per_page ∧
    (list_posts st params).data.length ≤
      ((list_posts st params).per_page).toNat := by
  have hpage : (list_posts st params).page = max params.page 1 := rfl
  have hpp : (list_posts st params).per_page = clampI params.per_page 1 100 :=
    rfl
  have h1 : 1 ≤ max params.page 1 := le_max_right _ _
  have h2 : 1 ≤ clampI params.per_page 1 100 := by
    unfold clampI; split_ifs <;> omega
  have h3 : clampI params.per_page 1 100 ≤ 100 := by
    unfold clampI; split_ifs <;> omega
  refine ⟨hpage, hpp, ?_, ?_, ?_, ?_, ?_⟩
  · rw [hpage]; exact h1
  · rw [hpp]; exact h2
  · rw [hpp]; exact h3
  · rw [hpage, hpp]
    exact mul_nonneg (by omega) (by omega)
  · rw [hpp]
    show ((orderByCreatedAtDesc st.posts).drop _ |>.take _).length ≤ _
    rw [List.length_take]
    exact min_le_left _ _

/-- The ordering the listing actually establishes: `created_at` descending,
rows with equal `created_at` in ascending-id (table scan / insertion)
order. -/
def listOrder (a b : Post) : Prop :=
  b.created_at < a.created_at ∨
    (b.created_at = a.created_at ∧ a.id < b.id)

/-- Membership through the stable insertion step. -/
theorem mem_insertByCreatedAtDesc {x p : Post} {l : List Post} :
    x ∈ insertByCreatedAtDesc p l ↔ x = p ∨ x ∈ l := by
  induction l with
  | nil => simp [insertByCreatedAtDesc]
  | cons q qs ih =>
    unfold insertByCreatedAtDesc
    split_ifs with h
    · simp
    · simp [ih]
      tauto

/-- Membership through the modelled ORDER BY. -/
theorem mem_orderByCreatedAtDesc {x : Post} {l : List Post} :
    x ∈ orderByCreatedAtDesc l ↔ x ∈ l := by
  induction l with
  | nil => simp [orderByCreatedAtDesc]
  | cons p ps ih =>
    simp [orderByCreatedAtDesc, mem_insertByCreatedAtDesc, ih]

/-- Stable insertion preserves the listing order, provided the inserted row's
id is below every id already present (it was scanned earlier). -/
theorem pairwise_insertByCreatedAtDesc {p : Post} {l : List Post}
    (hl : l.Pairwise listOrder) (hid : ∀ q ∈ l, p.id < q.id) :
    (insertByCreatedAtDesc p l).Pairwise listOrder := by
  induction l with
  | nil => simp [insertByCreatedAtDesc]
  | cons q qs ih =>
    rw [List.pairwise_cons] at hl
    obtain ⟨hq, hqs⟩ := hl
    unfold insertByCreatedAtDesc
    split_ifs with h
    · rw [List.pairwise_cons]
      constructor
      · intro x hx
        rcases List.mem_cons.mp hx with rfl | hx'
        · rcases lt_or_eq_of_le h with hlt | heq
          · exact Or.inl hlt
          · exact Or.inr ⟨heq, hid x (List.mem_cons_self x qs)⟩
        · have hkey : x.created_at ≤ q.created_at := by
            rcases hq x hx' with h1 | ⟨h1, _⟩
            · exact le_of_lt h1
            · exact le_of_eq h1
          rcases lt_or_eq_of_le (le_trans hkey h) with hlt | heq
          · exact Or.inl hlt
          · exact Or.inr ⟨heq, hid x (List.mem_cons_of_mem q hx')⟩
      · rw [List.pairwise_cons]
        exact ⟨hq, hqs⟩
    · rw [List.pairwise_cons]
      constructor
      · intro x hx
        rcases mem_insertByCreatedAtDesc.mp hx with rfl | hx'
        · exact Or.inl (not_le.mp h)
        · exact hq x hx'
      · exact ih hqs (fun x hx => hid x (List.mem_cons_of_mem q hx))

/-- The modelled ORDER BY yields the listing order whenever the table rows
have ascending ids in scan order. -/
theorem pairwise_orderByCreatedAtDesc {l : List Post}
    (hl : l.Pairwise (fun a b => a.id < b.id)) :
    (orderByCreatedAtDesc l).Pairwise listOrder := by
  induction l with
  | nil => simp [orderByCreatedAtDesc]
  | cons p ps ih =>
    rw [List.pairwise_cons] at hl
    exact pairwise_insertByCreatedAtDesc (ih hl.2)
      (fun q hq => hl.1 q (mem_orderByCreatedAtDesc.mp hq))

/-- Stable insertion adds one to the length. -/
theorem length_insertByCreatedAtDesc (p : Post) (l : List Post) :
    (insertByCreatedAtDesc p l).length = l.length + 1 := by
  induction l with
  | nil => rfl
  | cons q qs ih =>
    unfold insertByCreatedAtDesc
    split_ifs <;> simp [ih]

/-- The modelled ORDER BY preserves the length. -/
theorem length_orderByCreatedAtDesc (l : List Post) :
    (orderByCreatedAtDesc l).length = l.length := by
  induction l with
  | nil => rfl
  | cons p ps ih =>
    simp [orderByCreatedAtDesc, length_insertByCreatedAtDesc, ih]

/-- C3 counterexample: two posts share `created_at = 7`; the listing returns
them in ascending-id (insertion) order `[id 1, id 2]`, not the claimed
descending-id order.  (The SQL names no secondary sort key; ties keep the
scan order.) -/
theorem list_tie_order_cex :
    (list_posts ⟨[⟨1, "aaa", "c", "a", "draft", 7, 7⟩,
                  ⟨2, "bbb", "c", "a", "draft", 7, 7⟩]⟩ ⟨1, 10⟩).data =
      [⟨1, "aaa", "c", "a", "draft", 7, 7⟩,
       ⟨2, "bbb", "c", "a", "draft", 7, 7⟩] ∧
    (⟨1, "aaa", "c", "a", "draft", 7, 7⟩ : Post).created_at =
      (⟨2, "bbb", "c", "a", "draft", 7, 7⟩ : Post).created_at ∧
    (⟨1, "aaa", "c", "a", "draft", 7, 7⟩ : Post).id <
      (⟨2, "bbb", "c", "a", "draft", 7, 7⟩ : Post).id := by
  refine ⟨by decide, by decide, by decide⟩

/-- C3 amended: for a store whose rows have ascending ids in insertion
order, the returned window is ordered by `created_at` descending with ties
in ascending-id (insertion) order — id descending is NOT guaranteed, as the
SQL has no secondary sort key — and a window starting at or beyond the end
of the data is the empty list rather than an error. -/
theorem list_order_window (st : Store) (params : PaginationParams)
    (hids : st.posts.Pairwise (fun a b => a.id < b.id)) :
    (list_posts st params).data.Pairwise listOrder ∧
    (st.posts.length ≤
        ((max params.page 1 - 1) * clampI params.per_page 1 100).toNat →
      (list_posts st params).data = []) := by
  constructor
  · have hs := pairwise_orderByCreatedAtDesc hids
    exact List.Pairwise.sublist
      ((List.take_sublist _ _).trans (List.drop_sublist _ _)) hs
  · intro hbeyond
    show ((orderByCreatedAtDesc st.posts).drop _ |>.take _) = []
    rw [List.drop_eq_nil_of_le, List.take_nil]
    rw [length_orderByCreatedAtDesc]
    exact hbeyond

/-- Witness for C3: with two concrete rows, asking for page 5 of size 10
(offset 40, beyond the two rows) returns the empty window. -/
theorem list_order_window_witness :
    (list_posts ⟨[⟨1, "aaa", "c", "a", "draft", 7, 7⟩,
                  ⟨2, "bbb", "c", "a", "draft", 9, 9⟩]⟩ ⟨5, 10⟩).data = [] :=
  (list_order_window ⟨[⟨1, "aaa", "c", "a", "draft", 7, 7⟩,
                       ⟨2, "bbb", "c", "a", "draft", 9, 9⟩]⟩ ⟨5, 10⟩
    (by decide)).2 (by decide)

/-- C5 counterexample: on an empty store, `update_post` of id 1 with the
2-byte title "ab" signals `ValidationError`, not `NotFound`, although no row
with that id exists — validation runs before the existence check. -/
theorem update_notfound_cex :
    (update_post ⟨[]⟩ 0 1 ⟨some "ab", none, none, none⟩).1 =
      .error (.ValidationError "Title must be at least 3 characters") ∧
    ¬ ∃ p ∈ (⟨[]⟩ : Store).posts, p.id = 1 := by
  refine ⟨by decide, by simp⟩

/-- The `rows_affected == 0` test of `delete_post` holds exactly when no row
with the id exists. -/
theorem delete_affected_zero_iff (st : Store) (id : Int) :
    (st.posts.length -
      (st.posts.filter (fun p => !(p.id == id))).length = 0) ↔
    ¬ ∃ p ∈ st.posts, p.id = id := by
  rw [Nat.sub_eq_zero_iff_le]
  constructor
  · intro h hex
    obtain ⟨p, hp, hpid⟩ := hex
    have heq : (st.posts.filter (fun p => !(p.id == id))).length =
        st.posts.length :=
      Nat.le_antisymm (List.length_filter_le _ _) h
    have := List.filter_length_eq_length.mp heq p hp
    simp [hpid] at this
  · intro h
    have hall : ∀ p ∈ st.posts, (!(p.id == id)) = true := by
      intro p hp
      simp only [Bool.not_eq_eq_eq_not, Bool.not_true, beq_eq_false_iff_ne]
      intro hpid
      exact h ⟨p, hp, hpid⟩
    rw [List.filter_length_eq_length.mpr hall]

/-- C5 amended: `get_post` and `delete_post` signal `NotFound` exactly when
no row with the id exists; `update_post` signals `NotFound` exactly when the
payload passes the title validation AND no row with the id exists (an
invalid title wins over `NotFound`); the first delete of an existing id
returns 204 and a second delete of the same id returns `NotFound`. -/
theorem notfound_iff_absent (st : Store) (id : Int) (now : Nat)
    (payload : UpdatePost) :
    (get_post st id = .error .NotFound ↔ ¬ ∃ p ∈ st.posts, p.id = id) ∧
    ((update_post st now id payload).1 = .error .NotFound ↔
      (titleTooShort payload.title = false ∧
        ¬ ∃ p ∈ st.posts, p.id = id)) ∧
    ((delete_post st id).1 = .error .NotFound ↔
      ¬ ∃ p ∈ st.posts, p.id = id) ∧
    ((∃ p ∈ st.posts, p.id = id) →
      (delete_post st id).1 = .ok 204 ∧
      (delete_post (delete_post st id).2 id).1 = .error .NotFound) := by
  have hfind : st.posts.find? (fun p => p.id == id) = none ↔
      ¬ ∃ p ∈ st.posts, p.id = id := by
    rw [List.find?_eq_none]
    constructor
    · intro h ⟨p, hp, hpid⟩
      exact absurd (by simp [hpid]) (h p hp)
    · intro h p hp hbeq
      exact h ⟨p, hp, by simpa using hbeq⟩
  refine ⟨?_, ?_, ?_, ?_⟩
  · unfold get_post
    cases hf : st.posts.find? (fun p => p.id == id) with
    | none => simpa using hfind.mp hf
    | some p =>
      simp only []
      constructor
      · intro h
        exact absurd h (by simp)
      · intro h
        exact absurd ⟨p, List.mem_of_find?_eq_some hf,
          by simpa using List.find?_some hf⟩ h
  · unfold update_post
    by_cases hts : titleTooShort payload.title
    · rw [if_pos hts]
      simp [hts]
    · rw [if_neg hts]
      unfold update_apply
      cases hf : st.posts.find? (fun p => p.id == id) with
      | none =>
        simp only [Bool.not_eq_true] at hts
        simpa [hts] using hfind.mp hf
      | some p =>
        simp only []
        constructor
        · intro h
          exact absurd h (by simp)
        · intro ⟨_, h⟩
          exact absurd ⟨p, List.mem_of_find?_eq_some hf,
            by simpa using List.find?_some hf⟩ h
  · unfold delete_post
    by_cases hz : st.posts.length -
        (st.posts.filter (fun p => !(p.id == id))).length = 0
    · rw [if_pos hz]
      simpa using (delete_affected_zero_iff st id).mp hz
    · rw [if_neg hz]
      have := (delete_affected_zero_iff st id).not.mp hz
      simp only [not_not] at this
      constructor
      · intro h
        exact absurd h (by simp)
      · intro h
        exact absurd this h
  · intro hex
    have hz : ¬ (st.posts.length -
        (st.posts.filter (fun p => !(p.id == id))).length = 0) := by
      intro h
      exact (delete_affected_zero_iff st id).mp h hex
    have hgone : ¬ ∃ p ∈ (st.posts.filter (fun p => !(p.id == id))),
        p.id = id := by
      intro ⟨p, hp, hpid⟩
      have := (List.mem_filter.mp hp).2
      simp [hpid] at this
    have hsnd : (delete_post st id).2 =
        ⟨st.posts.filter (fun p => !(p.id == id))⟩ := by
      unfold delete_post
      split_ifs
      all_goals rfl
    constructor
    · unfold delete_post
      rw [if_neg hz]
    · rw [hsnd]
      unfold delete_post
      rw [if_pos ((delete_affected_zero_iff
        ⟨st.posts.filter (fun p => !(p.id == id))⟩ id).mpr hgone)]

/-- Witness for C5: on a one-row store, the first delete of id 1 returns 204
and the second returns `NotFound`. -/
theorem notfound_iff_absent_witness :
    (delete_post ⟨[⟨1, "abc", "c", "a", "draft", 0, 0⟩]⟩ 1).1 = .ok 204 ∧
    (delete_post (delete_post ⟨[⟨1, "abc", "c", "a", "draft", 0, 0⟩]⟩ 1).2
      1).1 = .error .NotFound :=
  (notfound_iff_absent ⟨[⟨1, "abc", "c", "a", "draft", 0, 0⟩]⟩ 1 0
    ⟨none, none, none, none⟩).2.2.2
    ⟨⟨1, "abc", "c", "a", "draft", 0, 0⟩, by simp, rfl⟩

/-- C6 counterexample: for a storage fault with diagnostic
"connection refused", the response body message is
"Database error: connection refused" — the raw diagnostic appears verbatim
in the message sent to the caller (the "leak" the spec's §9 note records),
so the body message is not free of the raw storage text. -/
theorem storage_leak_cex :
    (AppError.intoResponse (.DatabaseError "connection refused")).1 = 500 ∧
    (AppError.intoResponse (.DatabaseError "connection refused")).2 =
      "Database error: " ++ "connection refused" ∧
    (AppError.intoResponse (.DatabaseError "connection refused")).2.data =
      "Database error: ".data ++ "connection refused".data := by
  refine ⟨rfl, rfl, rfl⟩

/-- C6 amended: every storage fault maps to HTTP status 500, but the body
message is `"Database error: " ++ e` where `e` is the raw storage
diagnostic: the raw message is leaked verbatim (as the tail of the body
message) to the caller, contrary to the claimed behavior. -/
theorem storage_fault_response (e : String) :
    (AppError.intoResponse (.DatabaseError e)).1 = 500 ∧
    (AppError.intoResponse (.DatabaseError e)).2 = "Database error: " ++ e ∧
    (AppError.intoResponse (.DatabaseError e)).2.data =
      "Database error: ".data ++ e.data := by
  refine ⟨rfl, rfl, ?_⟩
  show ("Database error: " ++ e).data = _
  rw [String.data_append]

/-- The fold in `freshId` only grows its accumulator. -/
theorem le_foldl_max (l : List Post) (a : Int) :
    a ≤ l.foldl (fun m p => max m p.id) a := by
  induction l generalizing a with
  | nil => exact le_refl a
  | cons x xs ih => exact le_trans (le_max_left a x.id) (ih (max a x.id))

/-- Every id in the table is bounded by the `freshId` fold. -/
theorem id_le_foldl_max (l : List Post) (a : Int) (p : Post) (hp : p ∈ l) :
    p.id ≤ l.foldl (fun m q => max m q.id) a := by
  induction l generalizing a with
  | nil => cases hp
  | cons x xs ih =>
    rcases List.mem_cons.mp hp with rfl | hp'
    · exact le_trans (le_max_right a p.id) (le_foldl_max xs (max a p.id))
    · exact ih (max a x.id) hp'

/-- The store-assigned id of a fresh row is strictly above every existing
id. -/
theorem id_lt_freshId (l : List Post) (p : Post) (hp : p ∈ l) :
    p.id < freshId l := by
  unfold freshId
  have := id_le_foldl_max l 0 p hp
  omega

/-- C7: a successful create returns the store-assigned (positive, hence
non-null) id, equal `created_at` and `updated_at`, and status "draft"
whenever the wire payload omitted `status`. -/
theorem create_result_fields (st : Store) (now : Nat)
    (input : CreatePostInput) (p : Post) (st' : Store)
    (hok : create_post st now (deserializeCreatePost input) = (.ok p, st')) :
    p.id = freshId st.posts ∧ 1 ≤ p.id ∧
    p.created_at = p.updated_at ∧
    (input.statusOpt = none → p.status = "draft") := by
  unfold create_post at hok
  split_ifs at hok with h1 h2 h3
  · simp at hok
  · simp at hok
  · simp at hok
  · simp only [Prod.mk.injEq, Except.ok.injEq] at hok
    obtain ⟨hp, -⟩ := hok
    subst hp
    refine ⟨rfl, ?_, rfl, ?_⟩
    · show 1 ≤ freshId st.posts
      unfold freshId
      have := le_foldl_max st.posts 0
      omega
    · intro h
      show (deserializeCreatePost input).status = "draft"
      simp [deserializeCreatePost, h, default_status]

/-- Witness for C7: creating `{title: "abc", content: "c", author: "a"}`
(status omitted) on the empty store at time 3. -/
theorem create_result_fields_witness :
    (⟨1, "abc", "c", "a", "draft", 3, 3⟩ : Post).created_at =
      (⟨1, "abc", "c", "a", "draft", 3, 3⟩ : Post).updated_at ∧
    (⟨1, "abc", "c", "a", "draft", 3, 3⟩ : Post).status = "draft" ∧
    1 ≤ (⟨1, "abc", "c", "a", "draft", 3, 3⟩ : Post).id := by
  have h := create_result_fields ⟨[]⟩ 3 ⟨"abc", "c", "a", none⟩
    ⟨1, "abc", "c", "a", "draft", 3, 3⟩ ⟨[⟨1, "abc", "c", "a", "draft", 3, 3⟩]⟩
    (by decide)
  exact ⟨h.2.2.1, h.2.2.2 rfl, h.2.1⟩

/-- C8 counterexample: the supplied title "éé" has 2 characters (fewer than
3), yet `update_post` accepts it and stores it, because the code checks the
UTF-8 byte length (4). -/
theorem update_validation_charlen_cex :
    ("éé".length < 3) ∧
    (update_post ⟨[⟨1, "abc", "c", "a", "draft", 0, 0⟩]⟩ 5 1
        ⟨some "éé", none, none, none⟩).1 =
      .ok ⟨1, "éé", "c", "a", "draft", 0, 5⟩ := by
  refine ⟨by decide, by decide⟩

/-- C8 amended: `update_post` signals `ValidationError` iff a title is
supplied whose UTF-8 byte length (Rust `len()`) is below 3; an absent title
is not validated, and no other field is validated: any payload passing the
title check against an existing row is applied as-is, so supplied empty
`content`, `author` or `status` values are stored. -/
theorem update_validation_bytelen (st : Store) (now : Nat) (id : Int)
    (payload : UpdatePost) :
    ((∃ m, (update_post st now id payload).1 =
        .error (.ValidationError m)) ↔
      (∃ t, payload.title = some t ∧ byteLen t < 3)) ∧
    (∀ old, st.posts.find? (fun q => q.id == id) = some old →
      titleTooShort payload.title = false →
      (update_post st now id payload).1 =
        .ok { id := old.id
              title := payload.title.getD old.title
              content := payload.content.getD old.content
              author := payload.author.getD old.author
              status := payload.status.getD old.status
              created_at := old.created_at
              updated_at := now }) := by
  constructor
  · unfold update_post
    by_cases hts : titleTooShort payload.title
    · rw [if_pos hts]
      cases htitle : payload.title with
      | none => rw [htitle] at hts; simp [titleTooShort] at hts
      | some t =>
        rw [htitle] at hts
        simp only [titleTooShort, decide_eq_true_eq] at hts
        simp [hts]
    · rw [if_neg hts]
      unfold update_apply
      cases hf : st.posts.find? (fun p => p.id == id) with
      | none =>
        simp only [Bool.not_eq_true] at hts
        constructor
        · intro ⟨m, hm⟩
          simp at hm
        · intro ⟨t, ht, hb⟩
          rw [ht] at hts
          simp [titleTooShort, hb] at hts
      | some old =>
        constructor
        · intro ⟨m, hm⟩
          simp at hm
        · intro ⟨t, ht, hb⟩
          simp only [Bool.not_eq_true] at hts
          rw [ht] at hts
          simp [titleTooShort, hb] at hts
  · intro old hold htt
    unfold update_post
    rw [if_neg (by simp [htt])]
    rw [update_apply_ok st now id payload old hold]

/-- Witness for C8: an update supplying an empty `author` against an
existing row is accepted and the empty author is stored. -/
theorem update_validation_bytelen_witness :
    (update_post ⟨[⟨1, "abc", "c", "me", "draft", 0, 0⟩]⟩ 7 1
        ⟨none, none, some "", none⟩).1 =
      .ok ⟨1, "abc", "c", "", "draft", 0, 7⟩ :=
  (update_validation_bytelen ⟨[⟨1, "abc", "c", "me", "draft", 0, 0⟩]⟩ 7 1
    ⟨none, none, some "", none⟩).2
    ⟨1, "abc", "c", "me", "draft", 0, 0⟩ (by decide) (by decide)

/-- C9: a successful create followed by a get of the returned id (with no
intervening operation) yields exactly the created entity. -/
theorem create_get_roundtrip (st : Store) (now : Nat) (payload : CreatePost)
    (p : Post) (st' : Store)
    (hok : create_post st now payload = (.ok p, st')) :
    get_post st' p.id = .ok p := by
  unfold create_post at hok
  split_ifs at hok with h1 h2 h3
  · simp at hok
  · simp at hok
  · simp at hok
  · simp only [Prod.mk.injEq, Except.ok.injEq] at hok
    obtain ⟨hp, hst⟩ := hok
    subst hp
    subst hst
    unfold get_post
    rw [List.find?_append]
    have hnone : st.posts.find?
        (fun q => q.id == freshId st.posts) = none := by
      rw [List.find?_eq_none]
      intro q hq hbeq
      have hlt := id_lt_freshId st.posts q hq
      rw [Int.lt_iff_le_and_ne] at hlt
      exact hlt.2 (by simpa using hbeq)
    rw [hnone]
    simp

/-- Witness for C9: create on the empty store, then get id 1. -/
theorem create_get_roundtrip_witness :
    get_post ⟨[⟨1, "abc", "c", "a", "draft", 4, 4⟩]⟩ 1 =
      .ok ⟨1, "abc", "c", "a", "draft", 4, 4⟩ :=
  create_get_roundtrip ⟨[]⟩ 4 ⟨"abc", "c", "a", "draft"⟩
    ⟨1, "abc", "c", "a", "draft", 4, 4⟩ ⟨[⟨1, "abc", "c", "a", "draft", 4, 4⟩]⟩
    (by decide)

/-- The states the service can reach from the empty (freshly migrated)
table: any interleaving of handler calls, executed at a monotonically
non-decreasing wall clock (`tick` lets time pass; each state-changing
handler runs at the current time). -/
inductive Reachable : Store → Nat → Prop where
  | init : Reachable ⟨[]⟩ 0
  | tick {st : Store} {t t' : Nat} :
      Reachable st t → t ≤ t' → Reachable st t'
  | create {st : Store} {t : Nat} (payload : CreatePost) :
      Reachable st t → Reachable (create_post st t payload).2 t
  | update {st : Store} {t : Nat} (id : Int) (payload : UpdatePost) :
      Reachable st t → Reachable (update_post st t id payload).2 t
  | delete {st : Store} {t : Nat} (id : Int) :
      Reachable st t → Reachable (delete_post st id).2 t

/-- Inductive invariant: in every reachable state each post satisfies
`created_at ≤ updated_at`, and both are bounded by the current clock. -/
theorem reachable_timestamps {st : Store} {t : Nat} (h : Reachable st t) :
    ∀ p ∈ st.posts, p.created_at ≤ p.updated_at ∧ p.updated_at ≤ t := by
  induction h with
  | init =>
    intro p hp
    cases hp
  | tick hr hle ih =>
    intro p hp
    exact ⟨(ih p hp).1, le_trans (ih p hp).2 hle⟩
  | @create st t payload hr ih =>
    intro p hp
    unfold create_post at hp
    split_ifs at hp with h1 h2 h3
    · exact ih p hp
    · exact ih p hp
    · exact ih p hp
    · simp only [] at hp
      rcases List.mem_append.mp hp with hp' | hp'
      · exact ih p hp'
      · rcases List.mem_singleton.mp hp' with rfl
        exact ⟨le_refl _, le_refl _⟩
  | @update st t id payload hr ih =>
    intro p hp
    unfold update_post at hp
    split_ifs at hp with hts
    · exact ih p hp
    · unfold update_apply at hp
      cases hf : st.posts.find? (fun q => q.id == id) with
      | none =>
        rw [hf] at hp
        exact ih p hp
      | some old =>
        rw [hf] at hp
        simp only [] at hp
        rcases List.mem_map.mp hp with ⟨q, hq, hqe⟩
        by_cases hqid : q.id == id
        · rw [if_pos hqid] at hqe
          subst hqe
          have hold := ih old (List.mem_of_find?_eq_some hf)
          exact ⟨le_trans hold.1 hold.2, le_refl _⟩
        · rw [if_neg hqid] at hqe
          subst hqe
          exact ih q hq
  | @delete st t id hr ih =>
    intro p hp
    unfold delete_post at hp
    split_ifs at hp
    · exact ih p (List.mem_filter.mp hp).1
    · exact ih p (List.mem_filter.mp hp).1

/-- C10: every post in every reachable store state satisfies
`created_at ≤ updated_at` — both timestamps are set equal at creation,
update refreshes only `updated_at`, delete only removes rows, and no
operation touches `created_at`. -/
theorem timestamps_invariant (st : Store) (t : Nat) (h : Reachable st t) :
    ∀ p ∈ st.posts, p.created_at ≤ p.updated_at :=
  fun p hp => (reachable_timestamps h p hp).1

/-- Witness for C10: create at time 3, update the content at time 7; the
surviving post has `created_at = 3 ≤ 7 = updated_at`. -/
theorem timestamps_invariant_witness :
    (⟨1, "abc", "x", "a", "draft", 3, 7⟩ : Post).created_at ≤
      (⟨1, "abc", "x", "a", "draft", 3, 7⟩ : Post).updated_at := by
  have h0 : Reachable ⟨[]⟩ 3 := .tick .init (by omega)
  have h1 := Reachable.create ⟨"abc", "c", "a", "draft"⟩ h0
  have e1 : (create_post ⟨[]⟩ 3 ⟨"abc", "c", "a", "draft"⟩).2 =
      ⟨[⟨1, "abc", "c", "a", "draft", 3, 3⟩]⟩ := by decide
  rw [e1] at h1
  have h2 : Reachable ⟨[⟨1, "abc", "c", "a", "draft", 3, 3⟩]⟩ 7 :=
    .tick h1 (by omega)
  have h3 := Reachable.update 1 ⟨none, some "x", none, none⟩ h2
  have e3 : (update_post ⟨[⟨1, "abc", "c", "a", "draft", 3, 3⟩]⟩ 7 1
      ⟨none, some "x", none, none⟩).2 =
      ⟨[⟨1, "abc", "x", "a", "draft", 3, 7⟩]⟩ := by decide
  rw [e3] at h3
  exact timestamps_invariant _ _ h3 ⟨1, "abc", "x", "a", "draft", 3, 7⟩
    (by simp)
